import Mathlib

/-!
Verification of the your-podcast repository against its natural-language
specification.  Each definition is a shallow embedding of one Python
function from the source tree (the file and line numbers are given in the
doc comments); the theorems settle the frozen claims C1..C10.
-/

namespace YourPodcast

/-! ## Transcript segments

`parse_transcript` (src/your_podcast/podcast/macos_tts.py) produces
`(speaker_number, text)` pairs; downstream functions consume lists of such
pairs.  We model the pair as `Nat × String` (speaker number, text). -/

/-- A `(speaker_number, text)` segment as produced by `parse_transcript`. -/
abbrev Segment := Nat × String

/-! ## C1: chunk_segments (google_cloud_tts.py, lines 74-106)

```python
chunks = []
current_chunk = []
current_size = 0
for speaker, text in segments:
    segment_size = len(text.encode("utf-8"))
    if current_size + segment_size > max_bytes and current_chunk:
        chunks.append(current_chunk)
        current_chunk = [(speaker, text)]
        current_size = segment_size
    else:
        current_chunk.append((speaker, text))
        current_size += segment_size
if current_chunk:
    chunks.append(current_chunk)
return chunks
```
`len(text.encode("utf-8"))` is the UTF-8 byte size of the text, i.e.
`String.utf8ByteSize`. -/

/-- UTF-8 byte size of a segment's text: `len(text.encode("utf-8"))`. -/
def segmentSize (s : Segment) : Nat := s.2.utf8ByteSize

/-- Total UTF-8 byte size of a chunk. -/
def chunkSize (c : List Segment) : Nat := (c.map segmentSize).sum

/-- The loop of `chunk_segments`: `current` is `current_chunk`, `size` is
`current_size`. -/
def chunkGo (maxBytes : Nat) : List Segment → List Segment → Nat → List (List Segment)
  | [], current, _ => if current.isEmpty then [] else [current]
  | s :: rest, current, size =>
    if size + segmentSize s > maxBytes ∧ ¬ current.isEmpty then
      current :: chunkGo maxBytes rest [s] (segmentSize s)
    else
      chunkGo maxBytes rest (current ++ [s]) (size + segmentSize s)

/-- `chunk_segments(segments, max_bytes=4000)` from
src/your_podcast/podcast/google_cloud_tts.py lines 74-106. -/
def chunk_segments (segments : List Segment) (maxBytes : Nat := 4000) :
    List (List Segment) :=
  chunkGo maxBytes segments [] 0

theorem chunkGo_flatten (maxBytes : Nat) (segs : List Segment) :
    ∀ current size, (chunkGo maxBytes segs current size).flatten = current ++ segs := by
  induction segs with
  | nil =>
    intro current size
    by_cases h : current.isEmpty <;> simp [chunkGo, h]
    simpa using List.isEmpty_iff.mp h
  | cons s rest ih =>
    intro current size
    rw [chunkGo]
    split
    · simp [ih]
    · simp [ih]

theorem chunkGo_nonempty (maxBytes : Nat) (segs : List Segment) :
    ∀ current size c, c ∈ chunkGo maxBytes segs current size → c ≠ [] := by
  induction segs with
  | nil =>
    intro current size c hc
    by_cases h : current.isEmpty <;> simp [chunkGo, h] at hc
    subst hc
    exact fun hnil => by simp [hnil] at h
  | cons s rest ih =>
    intro current size c hc
    rw [chunkGo] at hc
    split at hc
    · rcases List.mem_cons.mp hc with rfl | hc
      · next hcond => exact fun hnil => by simp [hnil] at hcond
      · exact ih _ _ _ hc
    · exact ih _ _ _ hc

theorem chunkGo_size_bound (maxBytes : Nat) (segs : List Segment) :
    ∀ current size, size = chunkSize current →
      (chunkSize current ≤ maxBytes ∨ current.length = 1) →
      ∀ c ∈ chunkGo maxBytes segs current size,
        chunkSize c ≤ maxBytes ∨ c.length = 1 := by
  induction segs with
  | nil =>
    intro current size _ hinv c hc
    by_cases h : current.isEmpty <;> simp [chunkGo, h] at hc
    subst hc; exact hinv
  | cons s rest ih =>
    intro current size hsize hinv c hc
    rw [chunkGo] at hc
    split at hc
    · rcases List.mem_cons.mp hc with rfl | hc
      · exact hinv
      · refine ih [s] (segmentSize s) (by simp [chunkSize]) (Or.inr rfl) c hc
    · next hcond =>
      rcases not_and_or.mp hcond with hle | hne
      · push_neg at hle
        refine ih (current ++ [s]) (size + segmentSize s) ?_ (Or.inl ?_) c hc
        · simp [chunkSize, hsize]
        · calc chunkSize (current ++ [s]) = size + segmentSize s := by
                simp [chunkSize, hsize]
            _ ≤ maxBytes := hle
      · have hcur : current = [] := List.isEmpty_iff.mp (not_not.mp hne)
        subst hcur
        have hsz : size = 0 := by simpa [chunkSize] using hsize
        subst hsz
        simp only [List.nil_append, Nat.zero_add] at hc
        exact ih [s] (segmentSize s) (by simp [chunkSize]) (Or.inr rfl) c hc

/-- **C1.** `chunk_segments` partitions the utterance list: flattening the
chunks gives back the original list (every utterance in exactly one chunk,
original order preserved), every chunk is nonempty, and every chunk either
has total UTF-8 size at most `B` or consists of exactly one utterance
(whose size is then itself over `B` whenever the chunk total is). -/
theorem chunk_segments_spec (segments : List Segment) (B : Nat) :
    (chunk_segments segments B).flatten = segments
    ∧ (∀ c ∈ chunk_segments segments B, c ≠ [])
    ∧ (∀ c ∈ chunk_segments segments B, chunkSize c ≤ B ∨ c.length = 1) := by
  refine ⟨?_, ?_, ?_⟩
  · simpa using chunkGo_flatten B segments [] 0
  · exact fun c hc => chunkGo_nonempty B segments [] 0 c hc
  · exact fun c hc =>
      chunkGo_size_bound B segments [] 0 (by simp [chunkSize]) (Or.inl (by simp [chunkSize])) c hc

/-! ## C2 / C10: fetch_with_retry and fetch_subreddit_json
(src/your_podcast/reddit/json_fetcher.py)

`fetch_with_retry` (lines 53-114) issues up to `max_retries + 1` requests.
On a 429 status with retries left it waits
`max(float(headers.get("X-Ratelimit-Reset", backoff)), backoff)` seconds,
doubles `backoff` (initially 1) and retries; on a 429 with no retries left
(or any other error status) `raise_for_status` raises and, since
`attempt < max_retries` is false for the former and the message lacks
"429" for the latter, the exception propagates.  We model the sequence of
HTTP responses the network would return as a function from attempt number
to a response, headers as exact rationals, and record every wait. -/

/-- An HTTP response as seen by the retry loop: the status code and the
`X-Ratelimit-Reset` header (absent or a number of seconds). -/
structure RateResp where
  status : Nat
  reset : Option ℚ
deriving DecidableEq

/-- How `fetch_with_retry` ended: `success k` / `failure k` mean the call
returned / raised while handling the response to attempt `k` (0-based), so
`k + 1` requests were issued in total. -/
inductive FetchOutcome where
  | success (attempt : Nat)
  | failure (attempt : Nat)
deriving DecidableEq

/-- Number of HTTP requests issued by a finished `fetch_with_retry` call. -/
def FetchOutcome.requests : FetchOutcome → Nat
  | .success k => k + 1
  | .failure k => k + 1

/-- The `for attempt in range(max_retries + 1)` loop of `fetch_with_retry`.
`fuel` is the number of loop iterations left, `backoff` the current
exponential-backoff value.  Returns the list of waits performed (seconds,
in order) and the outcome. -/
def fetchGo (responses : Nat → RateResp) (maxRetries : Nat) :
    Nat → Nat → ℚ → List ℚ × FetchOutcome
  | 0, attempt, _ => ([], .failure attempt)
  | fuel + 1, attempt, backoff =>
    let r := responses attempt
    if r.status = 429 then
      if attempt < maxRetries then
        let resetSeconds := r.reset.getD backoff
        let waitTime := max resetSeconds backoff
        let rec' := fetchGo responses maxRetries fuel (attempt + 1) (backoff * 2)
        (waitTime :: rec'.1, rec'.2)
      else ([], .failure attempt)
    else if 400 ≤ r.status then ([], .failure attempt)
    else ([], .success attempt)

/-- `fetch_with_retry(url, params, headers, max_retries=3)` from
src/your_podcast/reddit/json_fetcher.py lines 53-114, as a function of the
response sequence.  Returns the waits performed and the outcome. -/
def fetch_with_retry (responses : Nat → RateResp) (maxRetries : Nat := 3) :
    List ℚ × FetchOutcome :=
  fetchGo responses maxRetries (maxRetries + 1) 0 1

theorem fetchGo_all429 (responses : Nat → RateResp) (maxRetries : Nat)
    (h : ∀ i ≤ maxRetries, (responses i).status = 429) :
    ∀ fuel attempt, attempt + fuel = maxRetries + 1 → attempt ≤ maxRetries →
      fetchGo responses maxRetries fuel attempt (2 ^ attempt) =
        ((List.range' attempt (maxRetries - attempt)).map
            (fun i => max ((responses i).reset.getD (2 ^ i)) ((2 : ℚ) ^ i)),
          .failure maxRetries) := by
  intro fuel
  induction fuel with
  | zero => intro attempt h1 h2; omega
  | succ n ih =>
    intro attempt hfuel hatt
    rw [fetchGo]
    simp only [h attempt hatt, if_pos rfl]
    by_cases hlt : attempt < maxRetries
    · rw [if_pos hlt]
      have h2 : (2 : ℚ) ^ attempt * 2 = 2 ^ (attempt + 1) := by ring
      rw [h2, ih (attempt + 1) (by omega) (by omega)]
      have hrange : List.range' attempt (maxRetries - attempt) =
          attempt :: List.range' (attempt + 1) (maxRetries - (attempt + 1)) := by
        have : maxRetries - attempt = (maxRetries - (attempt + 1)) + 1 := by omega
        rw [this, List.range'_succ]
      rw [hrange]
      simp
    · rw [if_neg hlt]
      have : attempt = maxRetries := by omega
      subst this
      simp

/-- **C2.** If every attempt of `fetch_with_retry` receives a 429 response
then the call performs exactly `maxRetries` waits, the wait before the
`i`-th retry (0-based) being the greater of the server's reset-seconds
header for that response and the local exponential backoff counter `2^i`
(1 second, doubled per retry); the call fails only after the response to
attempt `maxRetries`, i.e. after `maxRetries + 1` consecutive 429s
exhaust the retry budget. -/
theorem fetch_with_retry_all429 (responses : Nat → RateResp) (maxRetries : Nat)
    (h : ∀ i ≤ maxRetries, (responses i).status = 429) :
    fetch_with_retry responses maxRetries =
      ((List.range maxRetries).map
          (fun i => max ((responses i).reset.getD (2 ^ i)) ((2 : ℚ) ^ i)),
        .failure maxRetries)
    ∧ (fetch_with_retry responses maxRetries).2.requests = maxRetries + 1 := by
  have hmain := fetchGo_all429 responses maxRetries h (maxRetries + 1) 0 (by omega) (by omega)
  have hr : List.range' 0 (maxRetries - 0) = List.range maxRetries := by
    simp [List.range_eq_range']
  rw [show ((2 : ℚ) ^ 0) = 1 by norm_num] at hmain
  rw [hr] at hmain
  refine ⟨hmain, ?_⟩
  rw [show fetch_with_retry responses maxRetries =
      fetchGo responses maxRetries (maxRetries + 1) 0 1 from rfl, hmain]
  rfl

/-- **C2 witness.** A responder that always answers 429 with a
reset-seconds header of 5, with two configured retries: the fetch waits 5
seconds (= max 5 1 ≥ 5) before the first retry, 5 (= max 5 2) before the
second, and fails after the third consecutive 429 (3 requests in total). -/
theorem fetch_with_retry_all429_witness :
    fetch_with_retry (fun _ => ⟨429, some 5⟩) 2 = ([5, 5], .failure 2)
    ∧ (5 : ℚ) ≤ 5
    ∧ (FetchOutcome.failure 2).requests = 3 := by
  have := fetch_with_retry_all429 (fun _ => ⟨429, some 5⟩) 2 (fun i _ => rfl)
  refine ⟨this.1.trans ?_, le_refl 5, rfl⟩
  norm_num [List.range_succ]

/-! ### C10: fetch_subreddit_json (json_fetcher.py, lines 117-180)

```python
base_url = f"https://www.reddit.com/r/{subreddit_name}/{sort}.json"
if limit > 100:
    raise NotImplementedError(...)       # before any network request
params = {"limit": limit}
...
try:
    resp = fetch_with_retry(base_url, ...)
    ...
except Exception as e:
    raise RuntimeError(f"Failed to fetch r/{subreddit_name}: {e}") from e
```
The `NotImplementedError` is raised before `fetch_with_retry` is ever
called; everything raised inside the `try` block (including retry
exhaustion) is re-raised as `RuntimeError`. -/

/-- The errors `fetch_subreddit_json` can raise: the pagination
`NotImplementedError` for `limit > 100`, or the `RuntimeError` wrapping
any fetch failure. -/
inductive JsonFetchError where
  | notImplemented
  | runtimeError
deriving DecidableEq

/-- `fetch_subreddit_json` from src/your_podcast/reddit/json_fetcher.py
lines 117-180, restricted to its control flow: returns the outcome (or
error) together with the number of HTTP requests issued. -/
def fetch_subreddit_json (responses : Nat → RateResp) (limit : Nat) :
    Except JsonFetchError FetchOutcome × Nat :=
  if limit > 100 then (.error .notImplemented, 0)
  else
    match fetch_with_retry responses 3 with
    | (_, .success a) => (.ok (.success a), a + 1)
    | (_, .failure a) => (.error .runtimeError, a + 1)

/-- **C10.** A call to `fetch_subreddit_json` with `limit > 100` raises
the pagination `NotImplementedError` before issuing any network request
(zero requests); with `limit ≤ 100` that error is never raised. -/
theorem fetch_subreddit_json_limit (responses : Nat → RateResp) (limit : Nat) :
    (limit > 100 →
      fetch_subreddit_json responses limit = (.error .notImplemented, 0))
    ∧ (limit ≤ 100 →
      (fetch_subreddit_json responses limit).1 ≠ .error .notImplemented) := by
  constructor
  · intro h
    simp [fetch_subreddit_json, h]
  · intro h
    have hn : ¬ limit > 100 := by omega
    simp only [fetch_subreddit_json, if_neg hn]
    rcases hfr : fetch_with_retry responses 3 with ⟨ws, out⟩
    cases out <;> simp

/-- **C10 witness.** At `limit = 101` the pagination error is raised with
zero requests issued; at `limit = 100` it is not raised. -/
theorem fetch_subreddit_json_limit_witness :
    fetch_subreddit_json (fun _ => ⟨200, none⟩) 101 = (.error .notImplemented, 0)
    ∧ (fetch_subreddit_json (fun _ => ⟨200, none⟩) 100).1 ≠ .error .notImplemented :=
  ⟨(fetch_subreddit_json_limit (fun _ => ⟨200, none⟩) 101).1 (by norm_num),
   (fetch_subreddit_json_limit (fun _ => ⟨200, none⟩) 100).2 (by norm_num)⟩

/-! ## C6 / C8: parse_transcript (macos_tts.py, lines 15-30)

```python
segments = []
pattern = r"<Person(\d)>(.*?)</Person\1>"
for match in re.finditer(pattern, transcript, re.DOTALL):
    speaker = int(match.group(1))
    text = match.group(2).strip()
    if text:
        segments.append((speaker, text))
return segments
```
We embed the specific regex as a left-to-right scanner over the character
list: at each position try to match `<Person` + digit + `>`; on success,
lazily find the first matching `</Person` + same digit + `>` (the lazy
`(.*?)` takes the shortest body); if found, emit the match and resume
after the close tag (non-overlapping matches); otherwise advance one
character, exactly as the backtracking engine moves its start position.
Transcripts are modelled as `List Char`. -/

/-- Python `str.strip()` on the ASCII whitespace characters. -/
def isPySpace (c : Char) : Bool :=
  c = ' ' || c = '\t' || c = '\n' || c = '\r' || c = '\x0B' || c = '\x0C'

/-- `text.strip()`: drop leading and trailing whitespace. -/
def pyStrip (cs : List Char) : List Char :=
  ((cs.dropWhile isPySpace).reverse.dropWhile isPySpace).reverse

/-- The seven fixed characters `"<Person"` opening a speaker tag. -/
def openTagHead : List Char := ['<', 'P', 'e', 'r', 's', 'o', 'n']

/-- The full open tag `<Person{d}>` for speaker digit `d`. -/
def openTag (d : Char) : List Char := openTagHead ++ [d, '>']

/-- The close tag `</Person{d}>` for speaker digit `d`. -/
def closeTag (d : Char) : List Char :=
  ['<', '/', 'P', 'e', 'r', 's', 'o', 'n', d, '>']

/-- Try to match `<Person(\d)>` at the start of `cs`; on success return
the digit and the remaining characters. -/
def openMatch (cs : List Char) : Option (Char × List Char) :=
  if openTagHead.isPrefixOf cs then
    match cs.drop 7 with
    | d :: g :: rest => if d.isDigit ∧ g = '>' then some (d, rest) else none
    | _ => none
  else none

/-- Lazy search for the first `</Person{d}>` in `cs`: returns the body
before it and the characters after it (the shortest-body semantics of the
non-greedy `(.*?)`). -/
def findClose (d : Char) : List Char → Option (List Char × List Char)
  | [] => none
  | c :: cs =>
    if (closeTag d).isPrefixOf (c :: cs) then some ([], (c :: cs).drop 10)
    else
      match findClose d cs with
      | some (body, rest) => some (c :: body, rest)
      | none => none

/-- The `re.finditer` scan: leftmost non-overlapping matches of
`<Person(\d)>(.*?)</Person\1>`.  `fuel` bounds the number of scan steps;
each step either consumes a whole match or advances one character, so
`cs.length` fuel always suffices. -/
def findTurnsGo : Nat → List Char → List (Char × List Char)
  | 0, _ => []
  | _ + 1, [] => []
  | fuel + 1, c :: cs =>
    match openMatch (c :: cs) with
    | some (d, rest) =>
      match findClose d rest with
      | some (body, rest2) => (d, body) :: findTurnsGo fuel rest2
      | none => findTurnsGo fuel cs
    | none => findTurnsGo fuel cs

/-- `int(match.group(1))` for the single digit captured by `(\d)`. -/
def charDigitToNat (d : Char) : Nat := d.toNat - '0'.toNat

/-- `parse_transcript(transcript)` from
src/your_podcast/podcast/macos_tts.py lines 15-30. -/
def parse_transcript (cs : List Char) : List (Nat × List Char) :=
  (findTurnsGo cs.length cs).filterMap fun p =>
    let text := pyStrip p.2
    if text.isEmpty then none else some (charDigitToNat p.1, text)

/-- A transcript piece, used to describe the inputs the claim ranges
over: a matched open/close turn `<Person{d}>{t}</Person{d}>` (whose text
may strip to empty), free separator text containing no tag opener, a
stray unmatched close tag `</Person{d}>`, or a malformed open tag
`<Person{d}{e}>` that does not fit the `<Person(\d)>` pattern (such as
`<Person12>` or `<PersonX&>`). -/
inductive Piece where
  | turn (d : Char) (t : List Char)
  | sep (s : List Char)
  | unmatchedClose (d : Char)
  | malformedOpen (d e : Char)
deriving DecidableEq

/-- The characters of one piece. -/
def renderPiece : Piece → List Char
  | .turn d t => openTag d ++ t ++ closeTag d
  | .sep s => s
  | .unmatchedClose d => closeTag d
  | .malformedOpen d e => openTagHead ++ [d, e, '>']

/-- A transcript assembled from pieces in order. -/
def renderDoc (doc : List Piece) : List Char := (doc.map renderPiece).flatten

/-- Well-formedness of a piece: a turn carries a digit tag and text with
no embedded `<`; separator text contains no `<`; the stray characters of
the other two pieces are not `<` and a malformed open really fails the
digit-then-`>` shape. -/
def pieceWF : Piece → Bool
  | .turn d t => d.isDigit && t.all (fun c => !(c == '<'))
  | .sep s => s.all (fun c => !(c == '<'))
  | .unmatchedClose d => !(d == '<')
  | .malformedOpen d e => !(d == '<') && !(e == '<') && !(d.isDigit && e == '>')

/-- The well-formed matched turns of a document, in source order. -/
def docTurns (doc : List Piece) : List (Char × List Char) :=
  doc.filterMap fun p => match p with | .turn d t => some (d, t) | _ => none

/-- The dictionary lookup `voices[speaker]` performed by
`generate_audio_macos` (macos_tts.py line 125) and
`generate_audio_chatterbox` (chatterbox_tts.py line 80), where
`voices = {1: voice_1, 2: voice_2}`; a missing key is a `KeyError`,
modelled as `none`. -/
def voicesLookup (v1 v2 : String) (speaker : Nat) : Option String :=
  if speaker = 1 then some v1 else if speaker = 2 then some v2 else none

theorem openMatch_render (d : Char) (rest : List Char) (hd : d.isDigit) :
    openMatch ('<' :: 'P' :: 'e' :: 'r' :: 's' :: 'o' :: 'n' :: d :: '>' :: rest) =
      some (d, rest) := by
  simp [openMatch, openTagHead, List.isPrefixOf, hd]

theorem openMatch_ne_lt (c : Char) (cs : List Char) (h : c ≠ '<') :
    openMatch (c :: cs) = none := by
  have : ('<' == c) = false := beq_eq_false_iff_ne.mpr (fun he => h he.symm)
  simp [openMatch, openTagHead, List.isPrefixOf, this]

theorem findClose_render (d : Char) (t r : List Char) (ht : ∀ c ∈ t, c ≠ '<') :
    findClose d (t ++ closeTag d ++ r) = some (t, r) := by
  induction t with
  | nil =>
    simp only [List.nil_append]
    rw [show closeTag d ++ r =
      '<' :: ('/' :: 'P' :: 'e' :: 'r' :: 's' :: 'o' :: 'n' :: d :: '>' :: r) from rfl]
    rw [findClose]
    simp [closeTag, List.isPrefixOf]
  | cons c t' ih =>
    have hc : c ≠ '<' := ht c (by simp)
    have : ('<' == c) = false := beq_eq_false_iff_ne.mpr (fun he => hc he.symm)
    rw [List.cons_append, List.cons_append, findClose]
    rw [if_neg (by simp [closeTag, List.isPrefixOf, this])]
    rw [ih (fun x hx => ht x (by simp [hx]))]

theorem renderPiece_turn_length (d : Char) (t : List Char) :
    (renderPiece (.turn d t)).length = t.length + 19 := by
  simp [renderPiece, openTag, openTagHead, closeTag]

theorem openMatch_close_start (cs : List Char) :
    openMatch ('<' :: '/' :: cs) = none := by
  have hp : ('P' == '/') = false := by decide
  simp [openMatch, openTagHead, List.isPrefixOf, hp]

theorem openMatch_malformed (d e : Char) (cs : List Char)
    (h : ¬(d.isDigit = true ∧ e = '>')) :
    openMatch ('<' :: 'P' :: 'e' :: 'r' :: 's' :: 'o' :: 'n' :: d :: e :: cs) = none := by
  simp [openMatch, openTagHead, List.isPrefixOf, h]

theorem findTurnsGo_no_lt :
    ∀ fuel (cs : List Char), (∀ c ∈ cs, c ≠ '<') → findTurnsGo fuel cs = [] := by
  intro fuel
  induction fuel with
  | zero => intro cs _; rfl
  | succ n ih =>
    intro cs h
    match cs with
    | [] => rfl
    | c :: cs' =>
      rw [findTurnsGo, openMatch_ne_lt c cs' (h c (by simp))]
      exact ih cs' (fun x hx => h x (by simp [hx]))

theorem findTurnsGo_doc :
    ∀ (n : Nat) (doc : List Piece), (renderDoc doc).length + doc.length = n →
      (∀ p ∈ doc, pieceWF p = true) →
      ∀ fuel, (renderDoc doc).length ≤ fuel →
        findTurnsGo fuel (renderDoc doc) = docTurns doc := by
  intro n
  induction n using Nat.strong_induction_on with
  | _ n ih =>
  intro doc hn hwf fuel hfuel
  match doc with
  | [] => cases fuel <;> rfl
  | .turn d t :: rest =>
    have hwf0 : pieceWF (.turn d t) = true := hwf _ (by simp)
    simp only [pieceWF, Bool.and_eq_true, List.all_eq_true] at hwf0
    have hd : d.isDigit = true := hwf0.1
    have ht : ∀ c ∈ t, c ≠ '<' := by
      intro c hc
      have := hwf0.2 c hc
      simpa using this
    have hcons : renderDoc (.turn d t :: rest) =
        '<' :: 'P' :: 'e' :: 'r' :: 's' :: 'o' :: 'n' :: d :: '>' ::
          (t ++ closeTag d ++ renderDoc rest) := rfl
    have hL : (renderDoc (.turn d t :: rest)).length
        = t.length + 19 + (renderDoc rest).length := by
      rw [hcons]
      simp [closeTag]
      omega
    cases fuel with
    | zero =>
      rw [hL] at hfuel
      omega
    | succ k =>
      have h1 := openMatch_render d (t ++ closeTag d ++ renderDoc rest) hd
      have h2 := findClose_render d t (renderDoc rest) ht
      rw [hcons, findTurnsGo]
      simp only [h1, h2]
      rw [hL] at hfuel hn
      simp only [List.length_cons] at hn
      rw [show docTurns (Piece.turn d t :: rest) = (d, t) :: docTurns rest from rfl]
      rw [ih ((renderDoc rest).length + rest.length) (by omega) rest rfl
        (fun p hp => hwf p (List.mem_cons_of_mem _ hp)) k (by omega)]
  | .sep [] :: rest =>
    have h1 : renderDoc (.sep [] :: rest) = renderDoc rest := rfl
    have h2 : docTurns (.sep [] :: rest) = docTurns rest := rfl
    rw [h1, h2]
    rw [h1] at hn hfuel
    simp only [List.length_cons] at hn
    exact ih ((renderDoc rest).length + rest.length) (by omega) rest rfl
      (fun p hp => hwf p (List.mem_cons_of_mem _ hp)) fuel hfuel
  | .sep (c :: s') :: rest =>
    have hwf0 : pieceWF (.sep (c :: s')) = true := hwf _ (by simp)
    simp only [pieceWF, List.all_cons, Bool.and_eq_true] at hwf0
    have hc : c ≠ '<' := by
      have := hwf0.1
      simpa using this
    have hs' : pieceWF (.sep s') = true := by
      simp only [pieceWF]
      exact hwf0.2
    have hcons : renderDoc (.sep (c :: s') :: rest) =
        c :: renderDoc (.sep s' :: rest) := rfl
    have hL : (renderDoc (.sep (c :: s') :: rest)).length =
        (renderDoc (.sep s' :: rest)).length + 1 := by
      rw [hcons]; rfl
    cases fuel with
    | zero =>
      rw [hL] at hfuel
      omega
    | succ k =>
      have h0 := openMatch_ne_lt c (renderDoc (.sep s' :: rest)) hc
      rw [hcons, findTurnsGo]
      simp only [h0]
      rw [hL] at hfuel hn
      simp only [List.length_cons] at hn
      have hwfs : ∀ p ∈ Piece.sep s' :: rest, pieceWF p = true := by
        intro p hp
        rcases List.mem_cons.mp hp with rfl | hp
        · exact hs'
        · exact hwf _ (List.mem_cons_of_mem _ hp)
      rw [show docTurns (Piece.sep (c :: s') :: rest) = docTurns (Piece.sep s' :: rest) from rfl]
      rw [ih ((renderDoc (.sep s' :: rest)).length + (Piece.sep s' :: rest).length)
        (by simp only [List.length_cons]; omega) (.sep s' :: rest) rfl hwfs k (by omega)]
  | .unmatchedClose d :: rest =>
    have hwf0 : pieceWF (.unmatchedClose d) = true := hwf _ (by simp)
    have hd : d ≠ '<' := by
      simp only [pieceWF, Bool.not_eq_eq_eq_not, Bool.not_true] at hwf0
      simpa using hwf0
    have hcons : renderDoc (.unmatchedClose d :: rest) =
        '<' :: '/' :: 'P' :: 'e' :: 'r' :: 's' :: 'o' :: 'n' :: d :: '>' ::
          renderDoc rest := rfl
    have hL : (renderDoc (.unmatchedClose d :: rest)).length =
        (renderDoc rest).length + 10 := by
      rw [hcons]
      simp only [List.length_cons]
    cases fuel with
    | zero =>
      rw [hL] at hfuel
      omega
    | succ k =>
      have h0 := openMatch_close_start
        ('P' :: 'e' :: 'r' :: 's' :: 'o' :: 'n' :: d :: '>' :: renderDoc rest)
      rw [hcons, findTurnsGo]
      simp only [h0]
      have hsep : ('/' :: 'P' :: 'e' :: 'r' :: 's' :: 'o' :: 'n' :: d :: '>' ::
          renderDoc rest) =
          renderDoc (.sep ['/', 'P', 'e', 'r', 's', 'o', 'n', d, '>'] :: rest) := rfl
      rw [hsep]
      have hdb : (d == '<') = false := beq_eq_false_iff_ne.mpr hd
      have hwfs : ∀ p ∈ Piece.sep ['/', 'P', 'e', 'r', 's', 'o', 'n', d, '>'] :: rest,
          pieceWF p = true := by
        intro p hp
        rcases List.mem_cons.mp hp with rfl | hp
        · simp [pieceWF, hdb]
        · exact hwf _ (List.mem_cons_of_mem _ hp)
      have hL2 : (renderDoc (Piece.sep ['/', 'P', 'e', 'r', 's', 'o', 'n', d, '>'] :: rest)).length
          = (renderDoc rest).length + 9 := by
        rw [← hsep]
        simp only [List.length_cons]
      rw [hL] at hfuel hn
      simp only [List.length_cons] at hn
      rw [show docTurns (Piece.unmatchedClose d :: rest) = docTurns rest from rfl]
      rw [show (docTurns rest : List (Char × List Char)) =
        docTurns (Piece.sep ['/', 'P', 'e', 'r', 's', 'o', 'n', d, '>'] :: rest) from rfl]
      rw [ih ((renderDoc (Piece.sep ['/', 'P', 'e', 'r', 's', 'o', 'n', d, '>'] :: rest)).length
          + (Piece.sep ['/', 'P', 'e', 'r', 's', 'o', 'n', d, '>'] :: rest).length)
        (by rw [hL2]; simp only [List.length_cons]; omega)
        (Piece.sep ['/', 'P', 'e', 'r', 's', 'o', 'n', d, '>'] :: rest) rfl hwfs k
        (by rw [hL2]; omega)]
  | .malformedOpen d e :: rest =>
    have hwf0 : pieceWF (.malformedOpen d e) = true := hwf _ (by simp)
    simp only [pieceWF, Bool.and_eq_true] at hwf0
    have hd : d ≠ '<' := by
      have := hwf0.1.1
      simpa using this
    have he : e ≠ '<' := by
      have := hwf0.1.2
      simpa using this
    have hshape : ¬(d.isDigit = true ∧ e = '>') := by
      have := hwf0.2
      simp only [Bool.not_eq_eq_eq_not, Bool.not_true, Bool.and_eq_false_iff] at this
      rcases this with h | h
      · exact fun hc => by rw [hc.1] at h; simp at h
      · exact fun hc => by
          have : (e == '>') = false := h
          rw [hc.2] at this
          simp at this
    have hcons : renderDoc (.malformedOpen d e :: rest) =
        '<' :: 'P' :: 'e' :: 'r' :: 's' :: 'o' :: 'n' :: d :: e :: '>' ::
          renderDoc rest := rfl
    have hL : (renderDoc (.malformedOpen d e :: rest)).length =
        (renderDoc rest).length + 10 := by
      rw [hcons]
      simp only [List.length_cons]
    cases fuel with
    | zero =>
      rw [hL] at hfuel
      omega
    | succ k =>
      have h0 := openMatch_malformed d e ('>' :: renderDoc rest) hshape
      rw [hcons, findTurnsGo]
      simp only [h0]
      have hsep : ('P' :: 'e' :: 'r' :: 's' :: 'o' :: 'n' :: d :: e :: '>' ::
          renderDoc rest) =
          renderDoc (.sep ['P', 'e', 'r', 's', 'o', 'n', d, e, '>'] :: rest) := rfl
      rw [hsep]
      have hdb : (d == '<') = false := beq_eq_false_iff_ne.mpr hd
      have heb : (e == '<') = false := beq_eq_false_iff_ne.mpr he
      have hwfs : ∀ p ∈ Piece.sep ['P', 'e', 'r', 's', 'o', 'n', d, e, '>'] :: rest,
          pieceWF p = true := by
        intro p hp
        rcases List.mem_cons.mp hp with rfl | hp
        · simp [pieceWF, hdb, heb]
        · exact hwf _ (List.mem_cons_of_mem _ hp)
      have hL2 : (renderDoc (Piece.sep ['P', 'e', 'r', 's', 'o', 'n', d, e, '>'] :: rest)).length
          = (renderDoc rest).length + 9 := by
        rw [← hsep]
        simp only [List.length_cons]
      rw [hL] at hfuel hn
      simp only [List.length_cons] at hn
      rw [show docTurns (Piece.malformedOpen d e :: rest) = docTurns rest from rfl]
      rw [show (docTurns rest : List (Char × List Char)) =
        docTurns (Piece.sep ['P', 'e', 'r', 's', 'o', 'n', d, e, '>'] :: rest) from rfl]
      rw [ih ((renderDoc (Piece.sep ['P', 'e', 'r', 's', 'o', 'n', d, e, '>'] :: rest)).length
          + (Piece.sep ['P', 'e', 'r', 's', 'o', 'n', d, e, '>'] :: rest).length)
        (by rw [hL2]; simp only [List.length_cons]; omega)
        (Piece.sep ['P', 'e', 'r', 's', 'o', 'n', d, e, '>'] :: rest) rfl hwfs k
        (by rw [hL2]; omega)]

theorem filterMap_strip (l : List (Char × List Char)) :
    (l.filterMap fun p =>
      let text := pyStrip p.2
      if text.isEmpty then none else some (charDigitToNat p.1, text)) =
    (l.filter (fun p => !(pyStrip p.2).isEmpty)).map
      (fun p => (charDigitToNat p.1, pyStrip p.2)) := by
  induction l with
  | nil => rfl
  | cons p rest ih =>
    simp only [List.filterMap_cons, List.filter_cons]
    by_cases h : (pyStrip p.2).isEmpty = true
    · rw [if_pos h, if_neg (by simp [h])]
      exact ih
    · rw [if_neg h, if_pos (by simp [Bool.not_eq_true] at h; simp [h])]
      rw [ih]
      rfl

/-- **C6.** For every transcript containing well-formed matched turns in
any interleaving of the speakers, possibly surrounded by tag-free
separator text, stray unmatched close tags and malformed open tags
(`renderDoc`), `parse_transcript` returns exactly one `(speaker, text)`
pair per turn whose text does not strip to empty, in source order, with
each text stripped of surrounding whitespace: empty-text matches are
dropped, and the separators, unmatched and malformed tags are silently
ignored; and on a transcript with no tags at all (no `<` at all) it
returns the empty list. -/
theorem parse_transcript_spec :
    (∀ doc : List Piece, (∀ p ∈ doc, pieceWF p = true) →
      parse_transcript (renderDoc doc) =
        ((docTurns doc).filter (fun p => !(pyStrip p.2).isEmpty)).map
          (fun p => (charDigitToNat p.1, pyStrip p.2)))
    ∧ (∀ cs : List Char, (∀ c ∈ cs, c ≠ '<') → parse_transcript cs = []) := by
  constructor
  · intro doc hwf
    unfold parse_transcript
    rw [findTurnsGo_doc ((renderDoc doc).length + doc.length) doc rfl hwf
      (renderDoc doc).length le_rfl]
    exact filterMap_strip (docTurns doc)
  · intro cs h
    unfold parse_transcript
    rw [findTurnsGo_no_lt cs.length cs h]
    rfl

/-- **C6 witness.** A transcript with newline separators between turns,
an interleaved whitespace-only turn (dropped), a stray `</Person1>`, a
malformed `<Person12>`, and trailing free text parses to exactly the
three non-empty turns, stripped, in source order; a tagless transcript
parses to the empty list. -/
theorem parse_transcript_spec_witness :
    parse_transcript
        (renderDoc
          [Piece.sep "\n".data,
           Piece.turn '1' " hi there ".data,
           Piece.sep "\n\n".data,
           Piece.turn '2' "   ".data,
           Piece.unmatchedClose '1',
           Piece.turn '2' "yo".data,
           Piece.malformedOpen '1' '2',
           Piece.turn '1' "ok?".data,
           Piece.sep " the end".data]) =
      [(1, "hi there".data), (2, "yo".data), (1, "ok?".data)]
    ∧ parse_transcript "no tags at all".data = [] :=
  ⟨(parse_transcript_spec.1
      [Piece.sep "\n".data,
       Piece.turn '1' " hi there ".data,
       Piece.sep "\n\n".data,
       Piece.turn '2' "   ".data,
       Piece.unmatchedClose '1',
       Piece.turn '2' "yo".data,
       Piece.malformedOpen '1' '2',
       Piece.turn '1' "ok?".data,
       Piece.sep " the end".data]
      (by decide)).trans (by decide),
   parse_transcript_spec.2 "no tags at all".data (by decide)⟩

/-! ### C8: speaker indices are not restricted to 1 or 2

The docstring of `parse_transcript` promises "speaker_number is 1 or 2",
and the spec's data model says every utterance has speaker index 1 or 2,
but the regex captures any digit `(\d)`: a `<Person3>` turn parses to
speaker 3, and the downstream `voices[speaker]` lookup (a two-key
dictionary) then raises `KeyError`. -/

/-- **C8.** The code contradicts its own documentation: on the input
`"<Person3>hi</Person3>"` the segmenter returns speaker index 3, which is
neither 1 nor 2, and the downstream voice lookup for speaker 3 fails
(`KeyError`, modelled as `none`). -/
theorem parse_transcript_speaker_three :
    parse_transcript "<Person3>hi</Person3>".data = [(3, "hi".data)]
    ∧ ¬(3 = 1 ∨ 3 = 2)
    ∧ voicesLookup "Zoe (Premium)" "Lee (Premium)" 3 = none := by
  refine ⟨by decide, by decide, by decide⟩

/-! ## C7: get_pause_duration (macos_tts.py, lines 50-72)

```python
text = text.strip().rstrip('"\'')
if text.endswith("?"):   return random.randint(500, 800)
elif text.endswith("..."): return random.randint(400, 600)
elif text.endswith("!"): return random.randint(200, 350)
else:                    return random.randint(300, 500)
```
`random.randint(a, b)` draws uniformly from `[a, b]` inclusive; we model
the random source as an arbitrary function `randint` constrained only by
those inclusive bounds. -/

/-- The trailing quote characters removed by `rstrip('"\'')`. -/
def isQuote (c : Char) : Bool := c = '"' || c = '\''

/-- Python `rstrip`: remove trailing characters satisfying `p`. -/
def rstripIf (p : Char → Bool) (cs : List Char) : List Char :=
  (cs.reverse.dropWhile p).reverse

/-- Python `str.endswith(suffix)`. -/
def endswith (cs suffix : List Char) : Bool :=
  suffix.reverse.isPrefixOf cs.reverse

/-- `get_pause_duration(text)` from src/your_podcast/podcast/macos_tts.py
lines 50-72, parameterised by the random source. -/
def get_pause_duration (randint : Nat → Nat → Nat) (text : List Char) : Nat :=
  let t := rstripIf isQuote (pyStrip text)
  if endswith t ['?'] then randint 500 800
  else if endswith t ['.', '.', '.'] then randint 400 600
  else if endswith t ['!'] then randint 200 350
  else randint 300 500

theorem endswith_last (cs : List Char) (c : Char) (h : endswith cs [c] = true) :
    cs.reverse.head? = some c := by
  rcases hr : cs.reverse with _ | ⟨a, l⟩ <;>
    simp [endswith, hr, List.isPrefixOf] at h ⊢
  exact h.symm

theorem endswith_ellipsis_last (cs : List Char)
    (h : endswith cs ['.', '.', '.'] = true) : cs.reverse.head? = some '.' := by
  rcases hr : cs.reverse with _ | ⟨a, l⟩ <;>
    simp [endswith, hr, List.isPrefixOf] at h ⊢
  exact h.1.symm

/-- **C7.** For every text and every possible draw of the random source
(any `randint` that respects its inclusive bounds), after stripping
whitespace and trailing quote characters: a text ending in `?` gets a
pause in [500, 800] ms, one ending in `...` gets [400, 600] ms, one
ending in `!` gets [200, 350] ms, and any other text gets [300, 500] ms. -/
theorem get_pause_duration_spec (randint : Nat → Nat → Nat) (text : List Char)
    (hr : ∀ a b, a ≤ b → a ≤ randint a b ∧ randint a b ≤ b) :
    (endswith (rstripIf isQuote (pyStrip text)) ['?'] = true →
      500 ≤ get_pause_duration randint text ∧ get_pause_duration randint text ≤ 800)
    ∧ (endswith (rstripIf isQuote (pyStrip text)) ['.', '.', '.'] = true →
      400 ≤ get_pause_duration randint text ∧ get_pause_duration randint text ≤ 600)
    ∧ (endswith (rstripIf isQuote (pyStrip text)) ['!'] = true →
      200 ≤ get_pause_duration randint text ∧ get_pause_duration randint text ≤ 350)
    ∧ (endswith (rstripIf isQuote (pyStrip text)) ['?'] = false →
      endswith (rstripIf isQuote (pyStrip text)) ['.', '.', '.'] = false →
      endswith (rstripIf isQuote (pyStrip text)) ['!'] = false →
      300 ≤ get_pause_duration randint text ∧ get_pause_duration randint text ≤ 500) := by
  set t := rstripIf isQuote (pyStrip text) with ht
  have hq := hr 500 800 (by norm_num)
  have he := hr 400 600 (by norm_num)
  have hx := hr 200 350 (by norm_num)
  have hs := hr 300 500 (by norm_num)
  unfold get_pause_duration
  rw [← ht]
  refine ⟨?_, ?_, ?_, ?_⟩
  · intro h1
    simp only [h1, if_pos]
    exact hq
  · intro h2
    have h1 : endswith t ['?'] = false := by
      rcases h : endswith t ['?'] with _ | _
      · rfl
      · have := endswith_last t '?' h
        have := endswith_ellipsis_last t h2
        simp_all
    simp only [h1, h2, Bool.false_eq_true, if_false, if_pos]
    exact he
  · intro h3
    have h1 : endswith t ['?'] = false := by
      rcases h : endswith t ['?'] with _ | _
      · rfl
      · have := endswith_last t '?' h
        have := endswith_last t '!' h3
        simp_all
    have h2 : endswith t ['.', '.', '.'] = false := by
      rcases h : endswith t ['.', '.', '.'] with _ | _
      · rfl
      · have := endswith_ellipsis_last t h
        have := endswith_last t '!' h3
        simp_all
    simp only [h1, h2, h3, Bool.false_eq_true, if_false, if_pos]
    exact hx
  · intro h1 h2 h3
    simp only [h1, h2, h3, Bool.false_eq_true, if_false]
    exact hs

/-- **C7 witness.** With the lower-bound draw and the text
`'Well... "maybe?"'`, the stripped text ends in `?` and the pause is 500,
inside [500, 800]. -/
theorem get_pause_duration_spec_witness :
    500 ≤ get_pause_duration (fun a _ => a) "Well... \x22maybe?\x22".data
    ∧ get_pause_duration (fun a _ => a) "Well... \x22maybe?\x22".data ≤ 800 :=
  (get_pause_duration_spec (fun a _ => a) "Well... \x22maybe?\x22".data
    (fun a b h => ⟨le_refl a, h⟩)).1 (by decide)

/-! ## C5: audio assembly

macos_tts.py lines 152-161 and chatterbox_tts.py lines 94-101 (identical):
```python
combined = audio_segments[0]
for i, seg in enumerate(audio_segments[1:]):
    prev_text = segments[i][1]
    pause_ms = get_pause_duration(prev_text)
    combined += AudioSegment.silent(duration=pause_ms)
    combined += seg
```
google_cloud_tts.py lines 256-260:
```python
combined = audio_chunks[0]
for chunk in audio_chunks[1:]:
    combined += chunk
```
`AudioSegment` values are modelled as token lists: `+` is concatenation
and `AudioSegment.silent(duration=ms)` is a single silence token.
(Indexing `segments[i]` out of range would raise in Python; the model's
`getD` default is never reached when the audio list was built from
`segments`, one unit per segment.) -/

/-- A piece of audio: either synthesized sound or inserted silence. -/
inductive AudioTok where
  | sound (id : Nat)
  | silence (ms : Nat)
deriving DecidableEq

/-- An `AudioSegment` value: a sequence of audio tokens. -/
abbrev Audio := List AudioTok

/-- The concatenation loop of `generate_audio_macos`
(src/your_podcast/podcast/macos_tts.py lines 152-161). -/
def macos_combine (randint : Nat → Nat → Nat) (segments : List (Nat × List Char)) :
    List Audio → Audio
  | [] => []
  | a :: rest =>
    rest.enum.foldl
      (fun combined p =>
        combined ++ [AudioTok.silence
          (get_pause_duration randint (segments.getD p.1 (0, [])).2)] ++ p.2)
      a

/-- The concatenation loop of `generate_audio_chatterbox`
(src/your_podcast/podcast/chatterbox_tts.py lines 94-101); the code is
the same as the macOS backend's. -/
def chatterbox_combine (randint : Nat → Nat → Nat) (segments : List (Nat × List Char)) :
    List Audio → Audio
  | [] => []
  | a :: rest =>
    rest.enum.foldl
      (fun combined p =>
        combined ++ [AudioTok.silence
          (get_pause_duration randint (segments.getD p.1 (0, [])).2)] ++ p.2)
      a

/-- The concatenation loop of `generate_audio_google_cloud`
(src/your_podcast/podcast/google_cloud_tts.py lines 256-260). -/
def google_cloud_combine : List Audio → Audio
  | [] => []
  | a :: rest => rest.foldl (fun combined chunk => combined ++ chunk) a

/-- Whether any silence token occurs in an audio value. -/
def hasSilence (a : Audio) : Bool :=
  a.any fun t => match t with | .silence _ => true | _ => false

/-- **C5 counterexample.** The byte-limited (Google Cloud) backend
assembles two synthesized units by plain concatenation: its output for
two sound units contains no silence token at all, so no silence is
inserted between the pair of consecutive units, contradicting the claim
that every backend inserts a heuristic pause between consecutive units. -/
theorem google_cloud_combine_no_silence :
    google_cloud_combine [[AudioTok.sound 0], [AudioTok.sound 1]] =
      [AudioTok.sound 0, AudioTok.sound 1]
    ∧ hasSilence (google_cloud_combine [[AudioTok.sound 0], [AudioTok.sound 1]]) = false :=
  ⟨rfl, rfl⟩

theorem foldl_append_chunks :
    ∀ (us : List Audio) (u : Audio),
      us.foldl (fun combined chunk => combined ++ chunk) u = u ++ us.flatten := by
  intro us
  induction us with
  | nil => intro u; simp
  | cons v vs ih => intro u; simp [ih, List.append_assoc]

theorem foldl_append_blocks (g : Nat × Audio → Audio) :
    ∀ (l : List (Nat × Audio)) (acc : Audio),
      l.foldl (fun combined p => combined ++ g p) acc = acc ++ (l.map g).flatten := by
  intro l
  induction l with
  | nil => intro acc; simp
  | cons p rest ih => intro acc; simp [ih]

/-- **C5 amended.** The per-utterance backends (macOS and Chatterbox,
which share the same assembly code) concatenate the synthesized units in
original order and insert between every pair of consecutive units exactly
one silence whose duration is `get_pause_duration` applied to the text of
the segment immediately preceding the gap; the byte-limited Google Cloud
backend concatenates its synthesized chunk audio in original order with
no inserted silence (its output is the plain flattening of the units). -/
theorem combine_assembly_spec (randint : Nat → Nat → Nat)
    (segments : List (Nat × List Char)) (a : Audio) (rest : List Audio) :
    macos_combine randint segments (a :: rest) =
      a ++ (rest.enum.map (fun p =>
        AudioTok.silence
          (get_pause_duration randint (segments.getD p.1 (0, [])).2) :: p.2)).flatten
    ∧ chatterbox_combine randint segments (a :: rest) =
        macos_combine randint segments (a :: rest)
    ∧ (∀ units : List Audio, google_cloud_combine units = units.flatten) := by
  refine ⟨?_, rfl, ?_⟩
  · rw [macos_combine]
    rw [show (fun (combined : Audio) (p : Nat × Audio) =>
        combined ++ [AudioTok.silence
          (get_pause_duration randint (segments.getD p.1 (0, [])).2)] ++ p.2) =
      (fun (combined : Audio) (p : Nat × Audio) =>
        combined ++ (AudioTok.silence
          (get_pause_duration randint (segments.getD p.1 (0, [])).2) :: p.2)) from by
        funext combined p
        simp]
    exact foldl_append_blocks _ rest.enum a
  · intro units
    match units with
    | [] => rfl
    | u :: us =>
      rw [google_cloud_combine, List.flatten_cons]
      exact foldl_append_chunks us u

/-! ## C3: generate_audio_google_cloud, moderation handling
(google_cloud_tts.py, lines 199-254)

```python
for chunk_idx, chunk in enumerate(chunks):
    audio_content = None
    try:
        audio_content = synthesize_chunk(chunk)
    except InvalidArgument as e:
        if "sensitive or harmful content" in str(e) or "400" in str(e):
            try:
                sanitized_chunk = sanitize_chunk_content(chunk)
                audio_content = synthesize_chunk(sanitized_chunk)
            except Exception as retry_error:
                skipped_chunks.append(chunk_idx + 1)
        else:
            raise
    if audio_content:
        audio_chunks.append(...)
if skipped_chunks: print warning listing skipped_chunks
if not audio_chunks: raise ValueError("All chunks failed ...")
```
The two external calls are modelled by an oracle per chunk: the outcome of
the first `synthesize_chunk` call, the chunk `sanitize_chunk_content`
would return (it never raises: it catches all its own exceptions and
falls back to the original chunk), and the outcome of the retry call on
that sanitized chunk.  `bytes` content is `List Nat`; Python's
`if audio_content:` is falsy for both `None` and empty bytes. -/

/-- A chunk handed to `synthesize_chunk`. -/
abbrev Chunk := List Segment

/-- Outcome of one `synthesize_chunk` call: audio bytes, an
`InvalidArgument` carrying a moderation marker ("sensitive or harmful
content" or "400" in its message), or any other exception. -/
inductive SynthOutcome where
  | ok (content : List Nat)
  | moderation
  | otherError
deriving DecidableEq

/-- The oracle for one chunk: first synthesis outcome, the sanitized
chunk the LM rewrite returns, and the outcome of synthesizing it. -/
structure ChunkEnv where
  first : SynthOutcome
  sanitized : Chunk
  retry : SynthOutcome
deriving DecidableEq

/-- `true` unless the outcome is the non-moderation exception that the
chunk loop re-raises. -/
def notOtherError : SynthOutcome → Bool
  | .otherError => false
  | _ => true

/-- `true` if a successful outcome carries non-empty audio bytes
(the realistic regime: a successful TTS response is never empty). -/
def okNonempty : SynthOutcome → Bool
  | .ok c => !c.isEmpty
  | _ => true

/-- A chunk "fails" when its first synthesis hits moderation and the
single sanitize-and-retry synthesis also raises. -/
def chunkFails (e : ChunkEnv) : Bool :=
  (match e.first with | .moderation => true | _ => false)
    && (match e.retry with | .ok _ => false | _ => true)

/-- The audio bytes a chunk contributes, if any. -/
def chunkContent (e : ChunkEnv) : Option (List Nat) :=
  match e.first with
  | .ok c => some c
  | .moderation => match e.retry with | .ok c => some c | _ => none
  | .otherError => none

/-- Trace of the per-chunk loop: all `synthesize_chunk` inputs in call
order, the collected audio contents in order, and the 1-based indices of
skipped chunks. -/
structure TtsRun where
  calls : List Chunk
  audio : List (List Nat)
  skipped : List Nat
deriving DecidableEq

/-- The `for chunk_idx, chunk in enumerate(chunks)` loop of
`generate_audio_google_cloud` (google_cloud_tts.py lines 199-243), with
`idx` the current 0-based chunk index.  An `InvalidArgument` without a
moderation marker, or any non-`InvalidArgument` error of the first call,
propagates and aborts the run. -/
def processChunks (idx : Nat) : List (Chunk × ChunkEnv) → Except String TtsRun
  | [] => .ok ⟨[], [], []⟩
  | (chunk, e) :: rest =>
    match e.first with
    | .otherError => .error "InvalidArgument"
    | .ok c =>
      (processChunks (idx + 1) rest).map fun r =>
        ⟨chunk :: r.calls, if c.isEmpty then r.audio else c :: r.audio, r.skipped⟩
    | .moderation =>
      match e.retry with
      | .ok c =>
        (processChunks (idx + 1) rest).map fun r =>
          ⟨chunk :: e.sanitized :: r.calls,
            if c.isEmpty then r.audio else c :: r.audio, r.skipped⟩
      | _ =>
        (processChunks (idx + 1) rest).map fun r =>
          ⟨chunk :: e.sanitized :: r.calls, r.audio, (idx + 1) :: r.skipped⟩

/-- Error message of the final `raise ValueError` (line 252). -/
def allFailedMsg : String := "All chunks failed content moderation. Cannot generate audio."

/-- `generate_audio_google_cloud` after chunking (google_cloud_tts.py
lines 199-268): run the chunk loop, raise if no audio was collected,
otherwise return the audio units to concatenate together with the
skipped-chunk indices listed in the warning. -/
def generate_audio_google_cloud (items : List (Chunk × ChunkEnv)) :
    Except String (List (List Nat) × List Nat) :=
  match processChunks 0 items with
  | .error m => .error m
  | .ok r => if r.audio.isEmpty then .error allFailedMsg else .ok (r.audio, r.skipped)

/-- The synthesis calls the loop makes for one chunk: the chunk itself,
then — exactly on a moderation rejection — the sanitized rewrite. -/
def callsFor (chunk : Chunk) (e : ChunkEnv) : List Chunk :=
  match e.first with
  | .moderation => [chunk, e.sanitized]
  | _ => [chunk]

/-- Expected call list of the whole loop. -/
def callsSpec : List (Chunk × ChunkEnv) → List Chunk
  | [] => []
  | (chunk, e) :: rest => callsFor chunk e ++ callsSpec rest

/-- Expected collected audio of the whole loop. -/
def audioSpec : List (Chunk × ChunkEnv) → List (List Nat)
  | [] => []
  | (_, e) :: rest =>
    match chunkContent e with
    | some c => if c.isEmpty then audioSpec rest else c :: audioSpec rest
    | none => audioSpec rest

/-- Expected 1-based skipped indices of the whole loop. -/
def skippedSpec (idx : Nat) : List (Chunk × ChunkEnv) → List Nat
  | [] => []
  | (_, e) :: rest =>
    if chunkFails e then (idx + 1) :: skippedSpec (idx + 1) rest
    else skippedSpec (idx + 1) rest

theorem processChunks_spec :
    ∀ (items : List (Chunk × ChunkEnv)) (idx : Nat),
      (∀ p ∈ items, notOtherError (p.2).first = true) →
      processChunks idx items = .ok ⟨callsSpec items, audioSpec items, skippedSpec idx items⟩ := by
  intro items
  induction items with
  | nil => intro idx _; rfl
  | cons p rest ih =>
    intro idx hno
    rcases p with ⟨chunk, e⟩
    have hrest : ∀ q ∈ rest, notOtherError (q.2).first = true :=
      fun q hq => hno q (by simp [hq])
    rcases he : e.first with c | _ | _
    · simp [processChunks, he, ih (idx + 1) hrest, callsSpec, callsFor,
        audioSpec, chunkContent, skippedSpec, chunkFails, Except.map]
    · rcases hr : e.retry with c | _ | _
      · simp [processChunks, he, hr, ih (idx + 1) hrest, callsSpec, callsFor,
          audioSpec, chunkContent, skippedSpec, chunkFails, Except.map]
      · simp [processChunks, he, hr, ih (idx + 1) hrest, callsSpec, callsFor,
          audioSpec, chunkContent, skippedSpec, chunkFails, Except.map]
      · simp [processChunks, he, hr, ih (idx + 1) hrest, callsSpec, callsFor,
          audioSpec, chunkContent, skippedSpec, chunkFails, Except.map]
    · have := hno (chunk, e) (by simp)
      rw [he] at this
      simp [notOtherError] at this

theorem audioSpec_eq_nil_iff :
    ∀ (items : List (Chunk × ChunkEnv)),
      (∀ p ∈ items, notOtherError (p.2).first = true) →
      (∀ p ∈ items, okNonempty (p.2).first = true) →
      (∀ p ∈ items, okNonempty (p.2).retry = true) →
      (audioSpec items = [] ↔ ∀ p ∈ items, chunkFails p.2 = true) := by
  intro items
  induction items with
  | nil => intro _ _ _; simp [audioSpec]
  | cons p rest ih =>
    intro hno h1 h2
    rcases p with ⟨chunk, e⟩
    have ihr := ih (fun q hq => hno q (by simp [hq])) (fun q hq => h1 q (by simp [hq]))
      (fun q hq => h2 q (by simp [hq]))
    rcases he : e.first with c | _ | _
    · have hne : c.isEmpty = false := by
        have := h1 (chunk, e) (by simp)
        rw [he] at this
        simpa [okNonempty] using this
      simp [audioSpec, chunkContent, he, hne, chunkFails]
    · rcases hr : e.retry with c | _ | _
      · have hne : c.isEmpty = false := by
          have := h2 (chunk, e) (by simp)
          rw [hr] at this
          simpa [okNonempty] using this
        simp [audioSpec, chunkContent, he, hr, hne, chunkFails]
      · simp [audioSpec, chunkContent, he, hr, chunkFails, ihr]
      · simp [audioSpec, chunkContent, he, hr, chunkFails, ihr]
    · have := hno (chunk, e) (by simp)
      rw [he] at this
      simp [notOtherError] at this

/-- **C3.** For the byte-limited backend, provided no chunk raises a
non-moderation error and successful synthesis always yields non-empty
audio: the loop calls synthesis once per chunk, plus exactly one extra
call on the language-model-sanitized rewrite of each chunk whose first
call hit moderation (`callsSpec`); a chunk whose retry also fails is
skipped and its 1-based index recorded (`skippedSpec`) rather than
aborting the run; the overall operation fails if and only if every chunk
fails; and when only some chunks fail it returns the collected audio
together with the skipped indices listed in the warning. -/
theorem generate_audio_google_cloud_spec (items : List (Chunk × ChunkEnv))
    (hNoOther : ∀ p ∈ items, notOtherError (p.2).first = true)
    (hOk1 : ∀ p ∈ items, okNonempty (p.2).first = true)
    (hOk2 : ∀ p ∈ items, okNonempty (p.2).retry = true) :
    processChunks 0 items = .ok ⟨callsSpec items, audioSpec items, skippedSpec 0 items⟩
    ∧ (generate_audio_google_cloud items = .error allFailedMsg ↔
        ∀ p ∈ items, chunkFails p.2 = true)
    ∧ ((∃ p ∈ items, chunkFails p.2 = false) →
        generate_audio_google_cloud items = .ok (audioSpec items, skippedSpec 0 items)) := by
  have hmain := processChunks_spec items 0 hNoOther
  have hiff := audioSpec_eq_nil_iff items hNoOther hOk1 hOk2
  refine ⟨hmain, ?_, ?_⟩
  · rw [generate_audio_google_cloud, hmain]
    by_cases hemp : audioSpec items = []
    · have hall := hiff.mp hemp
      rw [hemp]
      constructor
      · intro _
        exact hall
      · intro _
        rfl
    · have : (audioSpec items).isEmpty = false := by
        simpa [List.isEmpty_iff] using hemp
      simp only [this, Bool.false_eq_true, if_false]
      constructor
      · intro h; exact absurd h (by simp)
      · intro hall; exact absurd (hiff.mpr hall) hemp
  · rintro ⟨p, hp, hfail⟩
    have hemp : ¬ audioSpec items = [] := by
      intro h
      have := hiff.mp h p hp
      rw [hfail] at this
      exact absurd this (by simp)
    have : (audioSpec items).isEmpty = false := by
      simpa [List.isEmpty_iff] using hemp
    rw [generate_audio_google_cloud, hmain]
    simp [this]

/-- **C3 witness.** Three chunks: the first synthesizes directly, the
second hits moderation and its sanitized retry also fails (so it is
skipped and index 2 recorded), the third hits moderation but its
sanitized retry succeeds.  Not all chunks fail, so the run returns the
two audio units with skipped list `[2]`. -/
theorem generate_audio_google_cloud_spec_witness :
    processChunks 0
        [([(1, "hello")], ⟨.ok [1, 2, 3], [], .ok [9]⟩),
         ([(1, "bad")], ⟨.moderation, [(1, "nice")], .otherError⟩),
         ([(2, "x")], ⟨.moderation, [(2, "y")], .ok [7]⟩)] =
      .ok ⟨callsSpec
            [([(1, "hello")], ⟨.ok [1, 2, 3], [], .ok [9]⟩),
             ([(1, "bad")], ⟨.moderation, [(1, "nice")], .otherError⟩),
             ([(2, "x")], ⟨.moderation, [(2, "y")], .ok [7]⟩)],
          audioSpec
            [([(1, "hello")], ⟨.ok [1, 2, 3], [], .ok [9]⟩),
             ([(1, "bad")], ⟨.moderation, [(1, "nice")], .otherError⟩),
             ([(2, "x")], ⟨.moderation, [(2, "y")], .ok [7]⟩)],
          skippedSpec 0
            [([(1, "hello")], ⟨.ok [1, 2, 3], [], .ok [9]⟩),
             ([(1, "bad")], ⟨.moderation, [(1, "nice")], .otherError⟩),
             ([(2, "x")], ⟨.moderation, [(2, "y")], .ok [7]⟩)]⟩
    ∧ (generate_audio_google_cloud
         [([(1, "hello")], ⟨.ok [1, 2, 3], [], .ok [9]⟩),
          ([(1, "bad")], ⟨.moderation, [(1, "nice")], .otherError⟩),
          ([(2, "x")], ⟨.moderation, [(2, "y")], .ok [7]⟩)] = .error allFailedMsg ↔
        ∀ p ∈ [([(1, "hello")], (⟨.ok [1, 2, 3], [], .ok [9]⟩ : ChunkEnv)),
               ([(1, "bad")], ⟨.moderation, [(1, "nice")], .otherError⟩),
               ([(2, "x")], ⟨.moderation, [(2, "y")], .ok [7]⟩)], chunkFails p.2 = true)
    ∧ ((∃ p ∈ [([(1, "hello")], (⟨.ok [1, 2, 3], [], .ok [9]⟩ : ChunkEnv)),
               ([(1, "bad")], ⟨.moderation, [(1, "nice")], .otherError⟩),
               ([(2, "x")], ⟨.moderation, [(2, "y")], .ok [7]⟩)], chunkFails p.2 = false) →
        generate_audio_google_cloud
            [([(1, "hello")], ⟨.ok [1, 2, 3], [], .ok [9]⟩),
             ([(1, "bad")], ⟨.moderation, [(1, "nice")], .otherError⟩),
             ([(2, "x")], ⟨.moderation, [(2, "y")], .ok [7]⟩)] =
          .ok (audioSpec
                [([(1, "hello")], ⟨.ok [1, 2, 3], [], .ok [9]⟩),
                 ([(1, "bad")], ⟨.moderation, [(1, "nice")], .otherError⟩),
                 ([(2, "x")], ⟨.moderation, [(2, "y")], .ok [7]⟩)],
               skippedSpec 0
                [([(1, "hello")], ⟨.ok [1, 2, 3], [], .ok [9]⟩),
                 ([(1, "bad")], ⟨.moderation, [(1, "nice")], .otherError⟩),
                 ([(2, "x")], ⟨.moderation, [(2, "y")], .ok [7]⟩)])) :=
  generate_audio_google_cloud_spec
    [([(1, "hello")], ⟨.ok [1, 2, 3], [], .ok [9]⟩),
     ([(1, "bad")], ⟨.moderation, [(1, "nice")], .otherError⟩),
     ([(2, "x")], ⟨.moderation, [(2, "y")], .ok [7]⟩)]
    (by decide) (by decide) (by decide)

/-! ## C4: fetch_and_save_subreddit_json (json_fetcher.py, lines 183-299)

```python
existing_ids = {p.reddit_id for p in session.query(Post.reddit_id)
    .filter(Post.reddit_id.in_([p["reddit_id"] for p in posts])).all()}
new_posts_to_fetch = [p for p in posts if p["reddit_id"] not in existing_ids]
for i, post_data in enumerate(new_posts_to_fetch):
    comments = fetch_comments(post_data["url"], ...)
    posts_with_comments.append((post_data, comments))
for post_data, comments in posts_with_comments:
    post = save_json_post_to_db(session, post_data, comments)
    if post: new_posts += 1; total_comments += len(comments)
```
and `save_json_post_to_db` (lines 183-216) first checks
`session.query(Post).filter(Post.reddit_id == ...).first()` and returns
`None` without inserting when a row exists.  The database is modelled as
the list of post rows, the comment endpoint as a function from post URL
to comment list, and we record the URLs of the per-post comment fetches.
Timestamps (`fetched_at = datetime.now$`) are wall-clock values
irrelevant to the claims and are omitted from the row. -/

/-- A stored comment (`{"author": ..., "body": ..., "score": ...}`). -/
structure RedditComment where
  author : String
  body : String
  score : Int
deriving DecidableEq

/-- A stored `Post` row (db/models.py lines 27-53), identified by its
unique `reddit_id`. -/
structure PostRow where
  reddit_id : String
  subreddit : String
  title : String
  content : String
  url : String
  author : String
  score : Int
  created_utc : Int
  comments : List RedditComment
deriving DecidableEq

/-- A raw post dict as produced by `fetch_subreddit_json`
(json_fetcher.py lines 163-175). -/
structure PostData where
  reddit_id : String
  subreddit : String
  title : String
  content : String
  url : String
  author : String
  score : Int
  created_utc : Int
deriving DecidableEq

/-- `save_json_post_to_db(session, post_data, comments)` from
json_fetcher.py lines 183-216: returns the updated database and the
created row, or `none` when a row with the same `reddit_id` exists. -/
def save_json_post_to_db (db : List PostRow) (p : PostData)
    (comments : List RedditComment) : List PostRow × Option PostRow :=
  if db.any (fun r => r.reddit_id == p.reddit_id) then (db, none)
  else
    let row : PostRow :=
      ⟨p.reddit_id, p.subreddit, p.title, p.content, p.url, p.author,
        p.score, p.created_utc, comments⟩
    (db ++ [row], some row)

/-- The save loop of `fetch_and_save_subreddit_json` (lines 290-294):
returns the updated database, the count of new posts and the count of
their comments. -/
def saveAllPosts (db : List PostRow) :
    List (PostData × List RedditComment) → List PostRow × Nat × Nat
  | [] => (db, 0, 0)
  | (p, cs) :: rest =>
    match save_json_post_to_db db p cs with
    | (db2, some _) =>
      let t := saveAllPosts db2 rest
      (t.1, t.2.1 + 1, t.2.2 + cs.length)
    | (db2, none) => saveAllPosts db2 rest

/-- Result of one `fetch_and_save_subreddit_json` run. -/
structure FetchSaveResult where
  db : List PostRow
  newPosts : Nat
  totalComments : Nat
  commentCalls : List String
deriving DecidableEq

/-- `fetch_and_save_subreddit_json` from json_fetcher.py lines 219-299,
as a function of the already-fetched listing `posts` and the comment
endpoint; `commentCalls` records the URL of every per-post comment fetch
issued. -/
def fetch_and_save_subreddit_json (db : List PostRow) (posts : List PostData)
    (fetchComments : String → List RedditComment) : FetchSaveResult :=
  let existingIds :=
    (db.filter (fun r => posts.any (fun p => p.reddit_id == r.reddit_id))).map
      (fun r => r.reddit_id)
  let newPostsToFetch := posts.filter (fun p => !(existingIds.contains p.reddit_id))
  let postsWithComments := newPostsToFetch.map (fun p => (p, fetchComments p.url))
  let t := saveAllPosts db postsWithComments
  ⟨t.1, t.2.1, t.2.2, newPostsToFetch.map (fun p => p.url)⟩

theorem saveAllPosts_mono (l : List (PostData × List RedditComment)) :
    ∀ (db : List PostRow) (r : PostRow), r ∈ db → r ∈ (saveAllPosts db l).1 := by
  induction l with
  | nil => intro db r hr; exact hr
  | cons pc rest ih =>
    intro db r hr
    rcases pc with ⟨p, cs⟩
    rw [saveAllPosts]
    unfold save_json_post_to_db
    by_cases h : db.any (fun q => q.reddit_id == p.reddit_id)
    · simp only [h, if_true]
      exact ih db r hr
    · simp only [h, if_false]
      exact ih (db ++ [_]) r (by simp [hr])

theorem saveAllPosts_covers (l : List (PostData × List RedditComment)) :
    ∀ (db : List PostRow) (p : PostData) (cs : List RedditComment), (p, cs) ∈ l →
      ∃ r ∈ (saveAllPosts db l).1, r.reddit_id = p.reddit_id := by
  induction l with
  | nil => intro db p cs h; simp at h
  | cons pc rest ih =>
    intro db p cs hmem
    rcases pc with ⟨q, qcs⟩
    rw [saveAllPosts]
    unfold save_json_post_to_db
    by_cases h : db.any (fun r => r.reddit_id == q.reddit_id)
    · simp only [h, if_true]
      rcases List.mem_cons.mp hmem with heq | hrest
      · injection heq with h1 h2
        subst h1
        obtain ⟨r, hr, hrq⟩ := List.any_eq_true.mp h
        exact ⟨r, saveAllPosts_mono rest db r hr, by simpa using hrq⟩
      · exact ih db p cs hrest
    · simp only [h, if_false]
      rcases List.mem_cons.mp hmem with heq | hrest
      · injection heq with h1 h2
        subst h1
        refine ⟨⟨p.reddit_id, p.subreddit, p.title, p.content, p.url, p.author,
            p.score, p.created_utc, qcs⟩,
          saveAllPosts_mono rest _ _ (by simp), rfl⟩
      · exact ih _ p cs hrest

theorem fetch_and_save_covers (db : List PostRow) (posts : List PostData)
    (fc : String → List RedditComment) :
    ∀ p ∈ posts, ∃ r ∈ (fetch_and_save_subreddit_json db posts fc).db,
      r.reddit_id = p.reddit_id := by
  intro p hp
  simp only [fetch_and_save_subreddit_json]
  by_cases hc :
    ((db.filter (fun r => posts.any (fun q => q.reddit_id == r.reddit_id))).map
      (fun r => r.reddit_id)).contains p.reddit_id
  · have hmem : p.reddit_id ∈
        (db.filter (fun r => posts.any (fun q => q.reddit_id == r.reddit_id))).map
          (fun r => r.reddit_id) := by
      simpa using hc
    obtain ⟨r, hrf, hrid⟩ := List.mem_map.mp hmem
    have hrdb : r ∈ db := (List.mem_filter.mp hrf).1
    exact ⟨r, saveAllPosts_mono _ db r hrdb, hrid⟩
  · have hfil : p ∈ posts.filter (fun q =>
        !(((db.filter (fun r => posts.any (fun q' => q'.reddit_id == r.reddit_id))).map
          (fun r => r.reddit_id)).contains q.reddit_id)) := by
      refine List.mem_filter.mpr ⟨hp, ?_⟩
      simpa using hc
    have hpc : (p, fc p.url) ∈ (posts.filter (fun q =>
        !(((db.filter (fun r => posts.any (fun q' => q'.reddit_id == r.reddit_id))).map
          (fun r => r.reddit_id)).contains q.reddit_id))).map (fun q => (q, fc q.url)) :=
      List.mem_map.mpr ⟨p, hfil, rfl⟩
    exact saveAllPosts_covers _ db p (fc p.url) hpc

theorem fetch_and_save_no_new (db : List PostRow) (posts : List PostData)
    (fc : String → List RedditComment)
    (hcov : ∀ p ∈ posts, ∃ r ∈ db, r.reddit_id = p.reddit_id) :
    fetch_and_save_subreddit_json db posts fc = ⟨db, 0, 0, []⟩ := by
  simp only [fetch_and_save_subreddit_json]
  have hfil : posts.filter (fun q =>
      !(((db.filter (fun r => posts.any (fun q' => q'.reddit_id == r.reddit_id))).map
        (fun r => r.reddit_id)).contains q.reddit_id)) = [] := by
    rw [List.filter_eq_nil_iff]
    intro p hp
    obtain ⟨r, hrdb, hrid⟩ := hcov p hp
    have hrf : r ∈ db.filter (fun r' => posts.any (fun q' => q'.reddit_id == r'.reddit_id)) :=
      List.mem_filter.mpr ⟨hrdb, List.any_eq_true.mpr ⟨p, hp, by simp [hrid]⟩⟩
    have : p.reddit_id ∈
        (db.filter (fun r' => posts.any (fun q' => q'.reddit_id == r'.reddit_id))).map
          (fun r' => r'.reddit_id) :=
      List.mem_map.mpr ⟨r, hrf, hrid⟩
    simp [this]
  rw [hfil]
  rfl

/-- **C4.** Running `fetch_and_save_subreddit_json` a second time over a
result set identical to the first run leaves the stored posts unchanged
(zero duplicate rows — existence is keyed on `reddit_id`), counts zero
new posts, and issues zero per-post comment-fetch calls, because the
existence check filters out already-present posts before the per-post
reply fetch. -/
theorem fetch_and_save_idempotent (db : List PostRow) (posts : List PostData)
    (fc : String → List RedditComment) :
    fetch_and_save_subreddit_json
        (fetch_and_save_subreddit_json db posts fc).db posts fc =
      ⟨(fetch_and_save_subreddit_json db posts fc).db, 0, 0, []⟩ :=
  fetch_and_save_no_new _ posts fc (fetch_and_save_covers db posts fc)

/-! ## C9: save_rss_post_to_db (rss_fetcher.py, lines 67-98)

```python
existing = session.query(Post).filter(Post.reddit_id == post_data["reddit_id"]).first()
if existing:
    return None
post = Post(
    reddit_id=..., subreddit=..., title=..., content=..., url=..., author=...,
    score=0,          # RSS doesn't provide score
    num_comments=0,   # RSS doesn't provide comment count
    created_utc=..., fetched_at=...,
)
```
The `Post` model (db/models.py lines 27-53) declares the attributes
`id, reddit_id, subreddit, title, content, url, author, score,
created_utc, fetched_at, comments, episodes` — there is **no**
`num_comments` attribute (though admin.py still refers to
`Post.num_comments`).  SQLAlchemy's declarative constructor raises
`TypeError` for any keyword argument that is not an attribute of the
model class, so constructing the row raises before anything is stored. -/

/-- The attributes declared on the `Post` model, db/models.py lines 27-53. -/
def postModelAttrs : List String :=
  ["id", "reddit_id", "subreddit", "title", "content", "url", "author",
   "score", "created_utc", "fetched_at", "comments", "episodes"]

/-- The keyword arguments `save_rss_post_to_db` passes to `Post(...)`
(rss_fetcher.py lines 85-96); `score` and `num_comments` are passed as 0. -/
def rssPostKwargs : List String :=
  ["reddit_id", "subreddit", "title", "content", "url", "author",
   "score", "num_comments", "created_utc", "fetched_at"]

/-- SQLAlchemy's declarative constructor: `Model(**kwargs)` raises
`TypeError` on a keyword that is not an attribute of the model class,
otherwise constructs the row. -/
def declarativeInit (modelAttrs kwargs : List String) : Except String Unit :=
  match kwargs.find? (fun k => !(modelAttrs.contains k)) with
  | some k => .error (k ++ " is an invalid keyword argument for Post")
  | none => .ok ()

/-- `save_rss_post_to_db(session, post_data)` from rss_fetcher.py lines
67-98, at the level of the stored `reddit_id`s: existence check first,
then the `Post(...)` constructor call. -/
def save_rss_post_to_db (dbIds : List String) (reddit_id : String) :
    Except String (Option String) :=
  if dbIds.any (fun r => r == reddit_id) then .ok none
  else
    match declarativeInit postModelAttrs rssPostKwargs with
    | .error e => .error e
    | .ok _ => .ok (some reddit_id)

/-- **C9.** The syndication-feed adapter cannot produce any normalized
post: it passes `num_comments=0` to the `Post` constructor, but the
`Post` model declares no `num_comments` attribute, so for every feed
entry not already stored (here `reddit_id = "abc123"` against an empty
database) the save raises `TypeError` instead of storing a post with
reply count defaulted to zero. -/
theorem save_rss_post_num_comments_bug :
    "num_comments" ∈ rssPostKwargs
    ∧ "num_comments" ∉ postModelAttrs
    ∧ save_rss_post_to_db [] "abc123" =
        .error "num_comments is an invalid keyword argument for Post" :=
  ⟨by decide, by decide, rfl⟩

end YourPodcast
